import Mathlib

/-!
Shallow embedding of the QR-code core of `src/web/shopify.ts`:
the WHATWG-URL operations the code relies on (`new URL`, the `pathname`
setter, `searchParams.append`, `toString`), the two URL builders
`productViewURL` and `productCheckoutURL`, and the `QRCodesDatastore`
CRUD / scan-handling methods modelled over an explicit store state.
Strings are modelled as lists of characters.
-/

abbrev Str := List Char

/-- Character data of a string literal. -/
def str (s : String) : Str := s.data

/-- ASCII letter, by code point. -/
def isAlphaChar (c : Char) : Bool :=
  (decide (65 ≤ c.toNat) && decide (c.toNat ≤ 90)) ||
  (decide (97 ≤ c.toNat) && decide (c.toNat ≤ 122))

/-- ASCII digit, by code point; models the regex class [0-9]. -/
def isDigitChar (c : Char) : Bool :=
  decide (48 ≤ c.toNat) && decide (c.toNat ≤ 57)

/-- Characters allowed in a URL scheme after the first letter. -/
def schemeChar (c : Char) : Bool :=
  isAlphaChar c || isDigitChar c ||
  decide (c.toNat = 43) || decide (c.toNat = 45) || decide (c.toNat = 46)

/-- A valid URL scheme: a letter followed by scheme characters. -/
def validSchemeB : Str → Bool
  | [] => false
  | c :: rest => isAlphaChar c && rest.all schemeChar

/-- Upper-case hexadecimal digit of a value below 16. -/
def hexDigit (n : Nat) : Char :=
  if n < 10 then Char.ofNat (48 + n) else Char.ofNat (55 + n)

/-- Percent-encoding of one byte. -/
def pctByte (b : Nat) : Str := ['%', hexDigit (b / 16), hexDigit (b % 16)]

/-- UTF-8 bytes of a code point. -/
def utf8Bytes (n : Nat) : List Nat :=
  if n < 128 then [n]
  else if n < 2048 then [192 + n / 64, 128 + n % 64]
  else if n < 65536 then [224 + n / 4096, 128 + n / 64 % 64, 128 + n % 64]
  else [240 + n / 262144, 128 + n / 4096 % 64, 128 + n / 64 % 64, 128 + n % 64]

/-- Percent-encoding of the UTF-8 bytes of one character. -/
def pctEncodeChar (c : Char) : Str := ((utf8Bytes c.toNat).map pctByte).flatten

/-- Characters serialized verbatim in a URL path: printable ASCII outside the
WHATWG path percent-encode set (code points 34, 35, 60, 62, 63, 96, 123, 125). -/
def pathSafe (c : Char) : Bool :=
  decide (33 ≤ c.toNat) && decide (c.toNat ≤ 126) &&
  !(decide (c.toNat = 34) || decide (c.toNat = 35) || decide (c.toNat = 60) ||
    decide (c.toNat = 62) || decide (c.toNat = 63) || decide (c.toNat = 96) ||
    decide (c.toNat = 123) || decide (c.toNat = 125))

/-- One path character as serialized by the URL pathname setter. -/
def pathEncChar (c : Char) : Str := if pathSafe c then [c] else pctEncodeChar c

/-- Path serialization of the URL pathname setter. -/
def encodePathChars : Str → Str
  | [] => []
  | c :: rest => pathEncChar c ++ encodePathChars rest

/-- Characters kept verbatim by application/x-www-form-urlencoded:
alphanumerics and the code points 42, 45, 46, 95. -/
def formSafe (c : Char) : Bool :=
  isAlphaChar c || isDigitChar c ||
  decide (c.toNat = 42) || decide (c.toNat = 45) ||
  decide (c.toNat = 46) || decide (c.toNat = 95)

/-- One character as serialized by URLSearchParams. -/
def formEncChar (c : Char) : Str :=
  if formSafe c then [c] else if c = ' ' then ['+'] else pctEncodeChar c

/-- application/x-www-form-urlencoded serialization of a string. -/
def formEncChars : Str → Str
  | [] => []
  | c :: rest => formEncChar c ++ formEncChars rest

/-- Longest prefix on which `p` is false. -/
def takeUntil (p : Char → Bool) (l : Str) : Str := l.takeWhile (fun c => !(p c))

/-- Remainder of the list from the first character on which `p` holds. -/
def dropFrom (p : Char → Bool) (l : Str) : Str := l.dropWhile (fun c => !(p c))

def isColon (c : Char) : Bool := decide (c = ':')

def isSlashQ (c : Char) : Bool := decide (c = '/') || decide (c = '?')

def isQmark (c : Char) : Bool := decide (c = '?')

def isEqSign (c : Char) : Bool := decide (c = '=')

/-- The test `listStartsWith pat l` is true when `pat` is an initial segment of `l`. -/
def listStartsWith : Str → Str → Bool
  | [], _ => true
  | _ :: _, [] => false
  | a :: as, b :: bs => a = b && listStartsWith as bs

/-- The components of a parsed WHATWG URL that this code base uses. -/
structure URL where
  scheme : Str
  host : Str
  path : Str
  query : List (Str × Str)
deriving DecidableEq

/-- URLSearchParams serialization of a query list. -/
def serializeQuery : List (Str × Str) → Str
  | [] => []
  | [(k, v)] => formEncChars k ++ ('=' :: formEncChars v)
  | (k, v) :: rest =>
    formEncChars k ++ ('=' :: formEncChars v) ++ ('&' :: serializeQuery rest)

/-- One `key=value` piece of a query string. -/
def parsePair (piece : Str) : Str × Str :=
  (takeUntil isEqSign piece,
   match dropFrom isEqSign piece with
   | [] => []
   | _ :: v => v)

/-- Parse a query string into key-value pairs. -/
def parseQuery (l : Str) : List (Str × Str) :=
  ((l.splitOn '&').filter (fun piece => !piece.isEmpty)).map parsePair

/-- Model of the WHATWG URL constructor `new URL(input)`, restricted to the
`scheme://host[/path][?query]` inputs this code base produces and consumes.
An input without a scheme (no colon) fails, as the real constructor does;
an empty path is normalized to `/`. -/
def parseL (l : Str) : Option URL :=
  let sch := takeUntil isColon l
  let rest0 := dropFrom isColon l
  if validSchemeB sch && listStartsWith (str "://") rest0 then
    let rest := rest0.drop 3
    let host := takeUntil isSlashQ rest
    let rest2 := dropFrom isSlashQ rest
    if host.isEmpty then none
    else
      let path0 := takeUntil isQmark rest2
      let qrest := dropFrom isQmark rest2
      some { scheme := sch, host := host,
             path := if path0.isEmpty then str "/" else path0,
             query := match qrest with | [] => [] | _ :: q => parseQuery q }
  else none

/-- Model of `url.toString()`. -/
def URL.toStr (u : URL) : Str :=
  u.scheme ++ str "://" ++ u.host ++ u.path ++
    (match u.query with
     | [] => []
     | q => '?' :: serializeQuery q)

/-- Model of assigning `url.pathname`; every assignment in this code base
passes a path that already begins with a slash. -/
def setPathname (u : URL) (p : Str) : URL := { u with path := encodePathChars p }

/-- Model of `url.searchParams.append(k, v)`. -/
def appendParam (u : URL) (k v : Str) : URL := { u with query := u.query ++ [(k, v)] }

/-- The literal part of the regex /gid:\/\/shopify\/ProductVariant\/([0-9]+)/. -/
def gidPat : Str := str "gid://shopify/ProductVariant/"

/-- Model of `variantId.replace(/gid:\/\/shopify\/ProductVariant\/([0-9]+)/, "$1")`:
the first occurrence of the pattern followed by a maximal non-empty digit run is
replaced by that digit run; an input with no match is returned unchanged. -/
def replaceGid : Str → Str
  | [] => []
  | c :: rest =>
    let after := (c :: rest).drop gidPat.length
    if listStartsWith gidPat (c :: rest) && !(after.takeWhile isDigitChar).isEmpty then
      after.takeWhile isDigitChar ++ after.dropWhile isDigitChar
    else c :: replaceGid rest

/-- Constant `DEFAULT_PURCHASE_QUANTITY` in shopify.ts. -/
def DEFAULT_PURCHASE_QUANTITY : Nat := 1

/-- Function `productViewURL` in shopify.ts: the URL of a product page, routed through
the discount page when a discount code is present (truthy). -/
def productViewURL (host productHandle discountCode : Str) : Option Str :=
  match parseL host with
  | none => none
  | some url =>
    let productPath := str "/products/" ++ productHandle
    if !discountCode.isEmpty then
      some (URL.toStr (appendParam (setPathname url (str "/discount/" ++ discountCode))
        (str "redirect") productPath))
    else
      some (URL.toStr (setPathname url productPath))

/-- Function `productCheckoutURL` in shopify.ts: the cart URL for a variant, with the
discount code appended as a query parameter when present (truthy). -/
def productCheckoutURL (host variantId : Str) (quantity : Nat) (discountCode : Str) :
    Option Str :=
  match parseL host with
  | none => none
  | some url =>
    let id := replaceGid variantId
    let url2 := setPathname url (str "/cart/" ++ id ++ (':' :: (Nat.repr quantity).data))
    let url3 := if !discountCode.isEmpty then appendParam url2 (str "discount") discountCode
                else url2
    some (URL.toStr url3)

/-- The mutable columns supplied to create and update. -/
structure Fields where
  shopDomain : Str
  title : Str
  productId : Str
  variantId : Str
  handle : Str
  discountId : Str
  discountCode : Str
  destination : Str
deriving DecidableEq

/-- A persisted row of the qr_codes table; `createdAt` is the server-side
defaulted creation timestamp. -/
structure Row extends Fields where
  scans : Nat
  createdAt : Nat
deriving DecidableEq

/-- A QR code record as returned by read: a row together with its id. -/
structure QRCode extends Row where
  id : Nat
deriving DecidableEq

/-- The qr_codes table: rows keyed by id, plus the AUTOINCREMENT counter. -/
structure Store where
  rows : List (Nat × Row)
  nextId : Nat
deriving DecidableEq

/-- Query `SELECT * WHERE id = ?` followed by the `rows.length === 1` check of read. -/
def lookupL (rows : List (Nat × Row)) (id : Nat) : Option Row :=
  match rows.filter (fun p => decide (p.1 = id)) with
  | [p] => some p.2
  | _ => none

def lookupRow (st : Store) (id : Nat) : Option Row := lookupL st.rows id

/-- Query `UPDATE ... WHERE id = ?`: rewrite the row whose key matches. -/
def mapRow (id : Nat) (f : Row → Row) (rows : List (Nat × Row)) : List (Nat × Row) :=
  rows.map (fun p => if p.1 = id then (p.1, f p.2) else p)

/-- The errors a scan request can surface: a rejected storage query, a
TypeError from `new URL`, or the thrown unrecognized-destination string. -/
inductive ScanErr where
  | persistence
  | invalidURL
  | unrecognizedDestination (value : Str)
deriving DecidableEq

namespace QRCodesDatastore

/-- Method `create`: INSERT with scans = 0, RETURNING the fresh AUTOINCREMENT id;
`now` models the server-side defaulted createdAt. -/
def create (st : Store) (now : Nat) (f : Fields) : Store × Nat :=
  ({ rows := st.rows ++ [(st.nextId, { toFields := f, scans := 0, createdAt := now })],
     nextId := st.nextId + 1 }, st.nextId)

/-- Method `read`: the row with the given id, or undefined. -/
def read (st : Store) (id : Nat) : Option QRCode :=
  (lookupRow st id).map (fun r => { toRow := r, id := id })

/-- The SET clause of `update`: the seven mutable columns; shopDomain,
scans and createdAt are not in the clause. -/
def replFields (r : Row) (f : Fields) : Row :=
  { r with title := f.title, productId := f.productId, variantId := f.variantId,
           handle := f.handle, discountId := f.discountId,
           discountCode := f.discountCode, destination := f.destination }

/-- Method `update`: UPDATE ... WHERE id = ?, then return true unconditionally. -/
def update (st : Store) (id : Nat) (f : Fields) : Store × Bool :=
  ({ st with rows := mapRow id (fun r => replFields r f) st.rows }, true)

/-- Method `delete`: DELETE ... WHERE id = ?, then return true unconditionally. -/
def delete (st : Store) (id : Nat) : Store × Bool :=
  ({ st with rows := st.rows.filter (fun p => !decide (p.1 = id)) }, true)

/-- Method `__increaseScanCount`: UPDATE ... SET scans = scans + 1 WHERE id = ?. -/
def increaseScanCount (st : Store) (id : Nat) : Store :=
  { st with rows := mapRow id (fun r => { r with scans := r.scans + 1 }) st.rows }

/-- The pure part of `handleCodeScan` after the scan-count update:
`new URL(qrcode.shopDomain)` followed by the destination switch. -/
def scanRedirect (q : QRCode) : Except ScanErr Str :=
  match parseL q.shopDomain with
  | none => Except.error ScanErr.invalidURL
  | some url =>
    if q.destination = str "product" then
      match productViewURL (URL.toStr url) q.handle q.discountCode with
      | some s => Except.ok s
      | none => Except.error ScanErr.invalidURL
    else if q.destination = str "checkout" then
      match productCheckoutURL (URL.toStr url) q.variantId DEFAULT_PURCHASE_QUANTITY
          q.discountCode with
      | some s => Except.ok s
      | none => Except.error ScanErr.invalidURL
    else Except.error (ScanErr.unrecognizedDestination q.destination)

/-- Method `handleCodeScan`: the scan-count increment is awaited first, with no
try/catch, so a rejected increment query propagates; only then is the shop
URL parsed and the destination dispatched. `incFail` models whether the
increment query rejects. -/
def handleCodeScan (incFail : Bool) (st : Store) (q : QRCode) :
    Store × Except ScanErr Str :=
  if incFail then (st, Except.error ScanErr.persistence)
  else (increaseScanCount st q.id, scanRedirect q)

end QRCodesDatastore

/-- The store-mutating operations of the datastore. -/
inductive Op where
  | createOp (now : Nat) (f : Fields)
  | updateOp (id : Nat) (f : Fields)
  | deleteOp (id : Nat)
  | scanOp (incFail : Bool) (q : QRCode)

/-- The effect of one operation on the store. -/
def applyOp (op : Op) (st : Store) : Store :=
  match op with
  | Op.createOp now f => (QRCodesDatastore.create st now f).1
  | Op.updateOp id f => (QRCodesDatastore.update st id f).1
  | Op.deleteOp id => (QRCodesDatastore.delete st id).1
  | Op.scanOp b q => (QRCodesDatastore.handleCodeScan b st q).1

/-! Helper lemmas about the character scanners. -/

theorem takeUntil_append (p : Char → Bool) (a b : Str) :
    (∀ c ∈ a, p c = false) → takeUntil p (a ++ b) = a ++ takeUntil p b := by
  induction a with
  | nil => intro _; rfl
  | cons c t ih =>
    intro h
    have hc : p c = false := h c (by simp)
    simp only [List.cons_append, takeUntil, List.takeWhile_cons, hc, Bool.not_false,
      if_true, List.cons.injEq, true_and]
    exact ih (fun x hx => h x (by simp [hx]))

theorem dropFrom_append (p : Char → Bool) (a b : Str) :
    (∀ c ∈ a, p c = false) → dropFrom p (a ++ b) = dropFrom p b := by
  induction a with
  | nil => intro _; rfl
  | cons c t ih =>
    intro h
    have hc : p c = false := h c (by simp)
    simp only [List.cons_append, dropFrom, List.dropWhile_cons, hc, Bool.not_false, if_true]
    exact ih (fun x hx => h x (by simp [hx]))

theorem takeUntil_cons_pos (p : Char → Bool) (c : Char) (l : Str) (h : p c = true) :
    takeUntil p (c :: l) = [] := by
  simp [takeUntil, List.takeWhile_cons, h]

theorem dropFrom_cons_pos (p : Char → Bool) (c : Char) (l : Str) (h : p c = true) :
    dropFrom p (c :: l) = c :: l := by
  simp [dropFrom, List.dropWhile_cons, h]

theorem dropFrom_all_neg (p : Char → Bool) (l : Str) :
    (∀ c ∈ l, p c = false) → dropFrom p l = [] := by
  induction l with
  | nil => intro _; rfl
  | cons c t ih =>
    intro h
    have hc : p c = false := h c (by simp)
    simp only [dropFrom, List.dropWhile_cons, hc, Bool.not_false, if_true]
    exact ih (fun x hx => h x (by simp [hx]))

theorem takeWhile_all (p : Char → Bool) (l : Str) :
    (∀ c ∈ l, p c = true) → l.takeWhile p = l := by
  induction l with
  | nil => intro _; rfl
  | cons c t ih =>
    intro h
    simp only [List.takeWhile_cons, h c (by simp), if_true, List.cons.injEq, true_and]
    exact ih (fun x hx => h x (by simp [hx]))

theorem dropWhile_all (p : Char → Bool) (l : Str) :
    (∀ c ∈ l, p c = true) → l.dropWhile p = [] := by
  induction l with
  | nil => intro _; rfl
  | cons c t ih =>
    intro h
    simp only [List.dropWhile_cons, h c (by simp), if_true]
    exact ih (fun x hx => h x (by simp [hx]))

theorem isEmpty_false_of_ne (l : Str) (h : l ≠ []) : l.isEmpty = false := by
  cases l with
  | nil => exact absurd rfl h
  | cons a t => rfl

/-! Helper lemmas about the encoders. -/

theorem encodePathChars_safe (l : Str) :
    (∀ c ∈ l, pathSafe c = true) → encodePathChars l = l := by
  induction l with
  | nil => intro _; rfl
  | cons c t ih =>
    intro h
    have hc : pathSafe c = true := h c (by simp)
    simp only [encodePathChars, pathEncChar, hc, if_true, List.singleton_append,
      List.cons.injEq, true_and]
    exact ih (fun x hx => h x (by simp [hx]))

theorem formEncChars_append (a b : Str) :
    formEncChars (a ++ b) = formEncChars a ++ formEncChars b := by
  induction a with
  | nil => rfl
  | cons c t ih => simp [formEncChars, ih, List.append_assoc]

theorem formEncChars_safe (l : Str) :
    (∀ c ∈ l, formSafe c = true) → formEncChars l = l := by
  induction l with
  | nil => intro _; rfl
  | cons c t ih =>
    intro h
    have hc : formSafe c = true := h c (by simp)
    simp only [formEncChars, formEncChar, hc, if_true, List.singleton_append,
      List.cons.injEq, true_and]
    exact ih (fun x hx => h x (by simp [hx]))

theorem isDigitChar_pathSafe (c : Char) (h : isDigitChar c = true) : pathSafe c = true := by
  simp only [isDigitChar, Bool.and_eq_true, decide_eq_true_eq] at h
  simp only [pathSafe, Bool.and_eq_true, Bool.or_eq_true, decide_eq_true_eq,
    Bool.not_eq_true', Bool.or_eq_false_iff, decide_eq_false_iff_not]
  omega

/-! Helper lemmas about the URL parser. -/

theorem schemeChar_ne_colon (c : Char) (h : schemeChar c = true) : isColon c = false := by
  by_cases hc : c = ':'
  · subst hc; exact absurd h (by decide)
  · simp [isColon, hc]

theorem validScheme_no_colon (sch : Str) (h : validSchemeB sch = true) :
    ∀ c ∈ sch, isColon c = false := by
  cases sch with
  | nil => exact absurd h (by decide)
  | cons c0 t =>
    simp only [validSchemeB, Bool.and_eq_true] at h
    intro c hc
    rcases List.mem_cons.mp hc with rfl | hct
    · by_cases h0 : c = ':'
      · subst h0; exact absurd h.1 (by decide)
      · simp [isColon, h0]
    · exact schemeChar_ne_colon c (by simpa using List.all_eq_true.mp h.2 c hct)

theorem startsWithSlashes (rest : Str) :
    listStartsWith (str "://") (':' :: '/' :: '/' :: rest) = true := by
  show listStartsWith (':' :: '/' :: '/' :: []) (':' :: '/' :: '/' :: rest) = true
  simp [listStartsWith]

/-- Parsing an origin string `scheme://host/` with a valid scheme and a
host free of slashes and question marks yields exactly that URL. -/
theorem parseL_origin (sch h : Str) (hs : validSchemeB sch = true) (hne : h ≠ [])
    (hh : ∀ c ∈ h, isSlashQ c = false) :
    parseL (sch ++ str "://" ++ h ++ str "/") =
      some { scheme := sch, host := h, path := str "/", query := [] } := by
  have hcolon : ∀ c ∈ sch, isColon c = false := validScheme_no_colon sch hs
  have hisE : h.isEmpty = false := isEmpty_false_of_ne h hne
  have e1 : sch ++ str "://" ++ h ++ str "/" = sch ++ (':' :: '/' :: '/' :: (h ++ ['/'])) := by
    have h1 : str "://" = ':' :: '/' :: '/' :: ([] : Str) := rfl
    have h2 : str "/" = ['/'] := rfl
    rw [h1, h2]; simp
  rw [e1]
  simp only [parseL]
  rw [takeUntil_append isColon sch _ hcolon, takeUntil_cons_pos isColon ':' _ (by decide),
    dropFrom_append isColon sch _ hcolon, dropFrom_cons_pos isColon ':' _ (by decide),
    List.append_nil, hs, startsWithSlashes]
  simp only [Bool.true_and, if_true]
  simp only [List.drop_succ_cons, List.drop_zero]
  rw [takeUntil_append isSlashQ h _ hh, takeUntil_cons_pos isSlashQ '/' _ (by decide),
    dropFrom_append isSlashQ h _ hh, dropFrom_cons_pos isSlashQ '/' _ (by decide),
    List.append_nil, hisE]
  rfl

theorem parseL_none_of_no_colon (l : Str) (h : (':' : Char) ∉ l) : parseL l = none := by
  have hall : ∀ c ∈ l, isColon c = false := by
    intro c hc
    by_cases h0 : c = ':'
    · subst h0; exact absurd hc h
    · simp [isColon, h0]
  simp only [parseL]
  rw [dropFrom_all_neg isColon l hall]
  have : listStartsWith (str "://") ([] : Str) = false := by decide
  rw [this]
  simp

/-! Helper lemmas about the gid regex replacement. -/

theorem listStartsWith_self_append (p x : Str) : listStartsWith p (p ++ x) = true := by
  induction p with
  | nil => rfl
  | cons c t ih => simp [listStartsWith, ih]

theorem replaceGid_cons (c : Char) (rest : Str) :
    replaceGid (c :: rest) =
      (if listStartsWith gidPat (c :: rest) &&
          !(((c :: rest).drop gidPat.length).takeWhile isDigitChar).isEmpty then
        ((c :: rest).drop gidPat.length).takeWhile isDigitChar ++
          ((c :: rest).drop gidPat.length).dropWhile isDigitChar
      else c :: replaceGid rest) := rfl

theorem replaceGid_gidPat (digits : Str) (h1 : digits ≠ [])
    (h2 : ∀ c ∈ digits, isDigitChar c = true) :
    replaceGid (gidPat ++ digits) = digits := by
  have e : gidPat ++ digits = 'g' :: (str "id://shopify/ProductVariant/" ++ digits) := rfl
  rw [e, replaceGid_cons, ← e]
  rw [listStartsWith_self_append, List.drop_left]
  rw [takeWhile_all isDigitChar digits h2, dropWhile_all isDigitChar digits h2,
    isEmpty_false_of_ne digits h1]
  simp

/-! Helper lemmas about the store. -/

theorem mapRow_cons (id : Nat) (f : Row → Row) (p : Nat × Row) (t : List (Nat × Row)) :
    mapRow id f (p :: t) = (if p.1 = id then (p.1, f p.2) else p) :: mapRow id f t := rfl

theorem filter_key_nomatch (rows : List (Nat × Row)) (j : Nat) :
    (∀ p ∈ rows, p.1 ≠ j) → rows.filter (fun p => decide (p.1 = j)) = [] := by
  induction rows with
  | nil => intro _; rfl
  | cons p t ih =>
    intro h
    have hp : p.1 ≠ j := h p (by simp)
    simp only [List.filter_cons, hp, decide_False, if_false]
    exact ih (fun x hx => h x (by simp [hx]))

theorem lookupL_nomatch (rows : List (Nat × Row)) (j : Nat)
    (h : ∀ p ∈ rows, p.1 ≠ j) : lookupL rows j = none := by
  simp [lookupL, filter_key_nomatch rows j h]

theorem lookupL_append_single (rows : List (Nat × Row)) (n : Nat) (r : Row)
    (h : ∀ p ∈ rows, p.1 ≠ n) :
    lookupL (rows ++ [(n, r)]) n = some r := by
  simp [lookupL, List.filter_append, filter_key_nomatch rows n h]

theorem lookupL_append_stable (rows : List (Nat × Row)) (n : Nat) (x : Row) (j : Nat)
    (r r' : Row) (h1 : lookupL rows j = some r)
    (h2 : lookupL (rows ++ [(n, x)]) j = some r') : r' = r := by
  unfold lookupL at h1 h2
  rw [List.filter_append] at h2
  by_cases hj : j = n
  · subst hj
    cases hf : rows.filter (fun p => decide (p.1 = j)) with
    | nil => rw [hf] at h1; simp at h1
    | cons p t =>
      cases t with
      | nil =>
        rw [hf] at h2
        simp at h2
      | cons q t2 => rw [hf] at h1; simp at h1
  · have hfx : [(n, x)].filter (fun p => decide (p.1 = j)) = [] := by
      simp [List.filter_cons]
      omega
    rw [hfx, List.append_nil, h1] at h2
    exact (Option.some.injEq _ _ ▸ h2).symm

theorem filter_mapRow (id : Nat) (f : Row → Row) (rows : List (Nat × Row)) (j : Nat) :
    (mapRow id f rows).filter (fun p => decide (p.1 = j)) =
      (rows.filter (fun p => decide (p.1 = j))).map
        (fun p => if p.1 = id then (p.1, f p.2) else p) := by
  induction rows with
  | nil => rfl
  | cons p t ih =>
    by_cases h1 : p.1 = id
    · by_cases h2 : p.1 = j
      · have h3 : id = j := by omega
        subst h3
        simp [mapRow_cons, List.filter_cons, h1, h2, ih]
      · have h3 : id ≠ j := by omega
        simp [mapRow_cons, List.filter_cons, h1, h2, h3, ih]
    · by_cases h2 : p.1 = j
      · have h3 : j ≠ id := by omega
        simp [mapRow_cons, List.filter_cons, h1, h2, h3, ih]
      · simp [mapRow_cons, List.filter_cons, h1, h2, ih]

theorem lookupL_mapRow (id : Nat) (f : Row → Row) (rows : List (Nat × Row)) (j : Nat) :
    lookupL (mapRow id f rows) j =
      (lookupL rows j).map (fun r => if j = id then f r else r) := by
  unfold lookupL
  rw [filter_mapRow]
  cases hf : rows.filter (fun p => decide (p.1 = j)) with
  | nil => rfl
  | cons p t =>
    cases t with
    | nil =>
      have hp : p.1 = j := by
        have hm : p ∈ rows.filter (fun p => decide (p.1 = j)) := by
          rw [hf]; exact List.mem_cons_self p []
        simpa using (List.mem_filter.mp hm).2
      subst hp
      by_cases hid : p.1 = id
      · simp [hid]
      · simp [hid]
    | cons q t2 => simp

theorem filter_ne_self (rows : List (Nat × Row)) (id : Nat) :
    (rows.filter (fun p => !decide (p.1 = id))).filter (fun p => decide (p.1 = id)) = [] := by
  apply filter_key_nomatch
  intro p hp
  simpa using (List.mem_filter.mp hp).2

theorem filter_ne_comm (rows : List (Nat × Row)) (id j : Nat) (h : j ≠ id) :
    (rows.filter (fun p => !decide (p.1 = id))).filter (fun p => decide (p.1 = j)) =
      rows.filter (fun p => decide (p.1 = j)) := by
  induction rows with
  | nil => rfl
  | cons p t ih =>
    by_cases h1 : p.1 = id
    · have h2 : p.1 ≠ j := by omega
      have h3 : id ≠ j := by omega
      simp [List.filter_cons, h1, h2, h3, ih]
    · by_cases h2 : p.1 = j
      · simp [List.filter_cons, h, h1, h2, ih]
      · simp [List.filter_cons, h1, h2, ih]

theorem mapRow_nomatch (id : Nat) (f : Row → Row) (rows : List (Nat × Row)) :
    (∀ p ∈ rows, p.1 ≠ id) → mapRow id f rows = rows := by
  induction rows with
  | nil => intro _; rfl
  | cons p t ih =>
    intro h
    have hp : p.1 ≠ id := h p (by simp)
    simp [mapRow_cons, hp, ih (fun x hx => h x (by simp [hx]))]

/-! Computation lemmas for the two URL builders over an origin host string. -/

theorem productViewURL_plain (sch h handle : Str) (hs : validSchemeB sch = true)
    (hne : h ≠ []) (hh : ∀ c ∈ h, isSlashQ c = false)
    (hhp : ∀ c ∈ handle, pathSafe c = true) :
    productViewURL (sch ++ str "://" ++ h ++ str "/") handle [] =
      some (sch ++ str "://" ++ h ++ str "/products/" ++ handle) := by
  have hsafe : ∀ c ∈ str "/products/" ++ handle, pathSafe c = true := by
    intro c hc
    rcases List.mem_append.mp hc with hc | hc
    · exact (by decide : ∀ c ∈ str "/products/", pathSafe c = true) c hc
    · exact hhp c hc
  simp only [productViewURL, parseL_origin sch h hs hne hh, List.isEmpty_nil,
    Bool.not_true, Bool.false_eq_true, if_false, setPathname, URL.toStr]
  rw [encodePathChars_safe _ hsafe]
  simp [List.append_assoc]

theorem productViewURL_discount (sch h handle D : Str) (hs : validSchemeB sch = true)
    (hne : h ≠ []) (hh : ∀ c ∈ h, isSlashQ c = false)
    (hhf : ∀ c ∈ handle, formSafe c = true)
    (hD : D ≠ []) (hDp : ∀ c ∈ D, pathSafe c = true) :
    productViewURL (sch ++ str "://" ++ h ++ str "/") handle D =
      some (sch ++ str "://" ++ h ++ str "/discount/" ++ D ++
        str "?redirect=%2Fproducts%2F" ++ handle) := by
  have hsafe : ∀ c ∈ str "/discount/" ++ D, pathSafe c = true := by
    intro c hc
    rcases List.mem_append.mp hc with hc | hc
    · exact (by decide : ∀ c ∈ str "/discount/", pathSafe c = true) c hc
    · exact hDp c hc
  simp only [productViewURL, parseL_origin sch h hs hne hh,
    isEmpty_false_of_ne D hD, Bool.not_false, if_true, setPathname, appendParam,
    URL.toStr]
  rw [encodePathChars_safe _ hsafe]
  have hq : serializeQuery [(str "redirect", str "/products/" ++ handle)] =
      str "redirect" ++ ('=' :: (str "%2Fproducts%2F" ++ handle)) := by
    show formEncChars (str "redirect") ++ ('=' :: formEncChars (str "/products/" ++ handle)) = _
    rw [formEncChars_append, formEncChars_safe handle hhf]
    rfl
  rw [List.nil_append]
  have hm : (match [(str "redirect", str "/products/" ++ handle)] with
      | [] => ([] : Str)
      | q => '?' :: serializeQuery q) =
      '?' :: serializeQuery [(str "redirect", str "/products/" ++ handle)] := rfl
  rw [hm, hq]
  have e2 : str "?redirect=%2Fproducts%2F" =
      '?' :: (str "redirect" ++ ('=' :: str "%2Fproducts%2F")) := rfl
  rw [e2]
  simp [List.append_assoc]

theorem productCheckoutURL_core (sch h vid : Str) (hs : validSchemeB sch = true)
    (hne : h ≠ []) (hh : ∀ c ∈ h, isSlashQ c = false)
    (hv : ∀ c ∈ replaceGid vid, pathSafe c = true) :
    productCheckoutURL (sch ++ str "://" ++ h ++ str "/") vid 1 [] =
      some (sch ++ str "://" ++ h ++ str "/cart/" ++ replaceGid vid ++ str ":1") := by
  have hrepr : (Nat.repr 1).data = ['1'] := rfl
  have hsafe : ∀ c ∈ str "/cart/" ++ replaceGid vid ++ (':' :: (Nat.repr 1).data),
      pathSafe c = true := by
    rw [hrepr]
    intro c hc
    rcases List.mem_append.mp hc with hc | hc
    · rcases List.mem_append.mp hc with hc | hc
      · exact (by decide : ∀ c ∈ str "/cart/", pathSafe c = true) c hc
      · exact hv c hc
    · exact (by decide : ∀ c ∈ [':', '1'], pathSafe c = true) c hc
  simp only [productCheckoutURL, parseL_origin sch h hs hne hh, List.isEmpty_nil,
    Bool.not_true, Bool.false_eq_true, if_false, setPathname, URL.toStr]
  rw [encodePathChars_safe _ hsafe, hrepr]
  have e2 : str ":1" = [':', '1'] := rfl
  rw [e2]
  simp [List.append_assoc]

theorem productCheckoutURL_core_discount (sch h vid D : Str) (hs : validSchemeB sch = true)
    (hne : h ≠ []) (hh : ∀ c ∈ h, isSlashQ c = false)
    (hv : ∀ c ∈ replaceGid vid, pathSafe c = true)
    (hD : D ≠ []) (hDf : ∀ c ∈ D, formSafe c = true) :
    productCheckoutURL (sch ++ str "://" ++ h ++ str "/") vid 1 D =
      some (sch ++ str "://" ++ h ++ str "/cart/" ++ replaceGid vid ++
        str ":1?discount=" ++ D) := by
  have hrepr : (Nat.repr 1).data = ['1'] := rfl
  have hsafe : ∀ c ∈ str "/cart/" ++ replaceGid vid ++ (':' :: (Nat.repr 1).data),
      pathSafe c = true := by
    rw [hrepr]
    intro c hc
    rcases List.mem_append.mp hc with hc | hc
    · rcases List.mem_append.mp hc with hc | hc
      · exact (by decide : ∀ c ∈ str "/cart/", pathSafe c = true) c hc
      · exact hv c hc
    · exact (by decide : ∀ c ∈ [':', '1'], pathSafe c = true) c hc
  simp only [productCheckoutURL, parseL_origin sch h hs hne hh,
    isEmpty_false_of_ne D hD, Bool.not_false, if_true, setPathname, appendParam,
    URL.toStr]
  rw [encodePathChars_safe _ hsafe, hrepr]
  have hq : serializeQuery [(str "discount", D)] = str "discount" ++ ('=' :: D) := by
    show formEncChars (str "discount") ++ ('=' :: formEncChars D) = _
    rw [formEncChars_safe D hDf]
    rfl
  rw [List.nil_append]
  have hm : (match [(str "discount", D)] with
      | [] => ([] : Str)
      | q => '?' :: serializeQuery q) =
      '?' :: serializeQuery [(str "discount", D)] := rfl
  rw [hm, hq]
  have e2 : str ":1?discount=" = ':' :: '1' :: '?' :: (str "discount" ++ ['=']) := rfl
  rw [e2]
  simp [List.append_assoc]

/-! Concrete sample records used by counterexamples and witnesses. -/

/-- A well-formed product record. -/
def shopFields : Fields :=
  { shopDomain := str "https://shop.example.com", title := str "My QR",
    productId := str "gid://shopify/Product/1",
    variantId := str "gid://shopify/ProductVariant/12345",
    handle := str "my-slug", discountId := str "", discountCode := str "",
    destination := str "product" }

def shopRow : Row := { toFields := shopFields, scans := 0, createdAt := 0 }

def shopStore : Store := { rows := [(1, shopRow)], nextId := 2 }

def shopQR : QRCode := { toRow := shopRow, id := 1 }

/-- A record persisted with an unrecognized destination value. -/
def bananaRow : Row :=
  { toFields := { shopFields with destination := str "banana" }, scans := 0, createdAt := 0 }

def bananaStore : Store := { rows := [(1, bananaRow)], nextId := 2 }

def bananaQR : QRCode := { toRow := bananaRow, id := 1 }

/-- A checkout record whose variant id does not match the gid pattern. -/
def badGidRow : Row :=
  { toFields := { shopFields with destination := str "checkout", variantId := str "not-a-gid" },
    scans := 0, createdAt := 0 }

def badGidStore : Store := { rows := [(1, badGidRow)], nextId := 2 }

def badGidQR : QRCode := { toRow := badGidRow, id := 1 }

/-- A record whose shop domain has no URL scheme. -/
def noSchemeRow : Row :=
  { toFields := { shopFields with shopDomain := str "shop.myshopify.com" },
    scans := 0, createdAt := 0 }

def noSchemeStore : Store := { rows := [(1, noSchemeRow)], nextId := 2 }

def noSchemeQR : QRCode := { toRow := noSchemeRow, id := 1 }

def emptyStore : Store := { rows := [], nextId := 1 }

/-! Claim theorems. -/

/-- Claim C1, counterexample: a scan of a checkout record whose variant id
`not-a-gid` does not match the gid pattern does not fail with a
malformed-input error; it returns a redirect URL with the raw variant id. -/
theorem c1_counterexample :
    (QRCodesDatastore.handleCodeScan false badGidStore badGidQR).2 =
      Except.ok (str "https://shop.example.com/cart/not-a-gid:1") := rfl

/-- Claim C1, amended: for a checkout record whose variant id does not match
the gid pattern (the regex replacement leaves it unchanged) and is made of
path-safe characters, destination resolution does not fail: it yields
`host/cart/<variantId>:1` with the variant id verbatim. -/
theorem c1_amended (sch h vid : Str) (hs : validSchemeB sch = true) (hne : h ≠ [])
    (hh : ∀ c ∈ h, isSlashQ c = false) (hv1 : replaceGid vid = vid)
    (hv2 : ∀ c ∈ vid, pathSafe c = true) :
    productCheckoutURL (sch ++ str "://" ++ h ++ str "/") vid 1 [] =
      some (sch ++ str "://" ++ h ++ str "/cart/" ++ vid ++ str ":1") := by
  have := productCheckoutURL_core sch h vid hs hne hh (by rw [hv1]; exact hv2)
  rw [hv1] at this
  exact this

/-- Claim C1, amended, witness at a concrete malformed variant id. -/
theorem c1_amended_witness :
    validSchemeB (str "https") = true ∧ str "shop.example.com" ≠ [] ∧
    (∀ c ∈ str "shop.example.com", isSlashQ c = false) ∧
    replaceGid (str "not-a-gid") = str "not-a-gid" ∧
    (∀ c ∈ str "not-a-gid", pathSafe c = true) ∧
    productCheckoutURL (str "https" ++ str "://" ++ str "shop.example.com" ++ str "/")
        (str "not-a-gid") 1 [] =
      some (str "https" ++ str "://" ++ str "shop.example.com" ++ str "/cart/" ++
        str "not-a-gid" ++ str ":1") :=
  ⟨by decide, by decide, by decide, by decide, by decide,
    c1_amended (str "https") (str "shop.example.com") (str "not-a-gid")
      (by decide) (by decide) (by decide) (by decide) (by decide)⟩

/-- Claim C2, counterexample: when the scan-count increment query fails, the
scan of a perfectly valid record fails with the persistence error instead of
still returning the resolved redirect URL. -/
theorem c2_counterexample :
    QRCodesDatastore.handleCodeScan true shopStore shopQR =
      (shopStore, Except.error ScanErr.persistence) := rfl

/-- Claim C2, amended: a failure of the scan-count increment aborts the whole
scan: the error propagates (the increment is awaited with no try/catch), the
store is unchanged, and no redirect URL is returned. -/
theorem c2_amended (st : Store) (q : QRCode) :
    QRCodesDatastore.handleCodeScan true st q = (st, Except.error ScanErr.persistence) ∧
    ∀ u : Str, (QRCodesDatastore.handleCodeScan true st q).2 ≠ Except.ok u := by
  refine ⟨rfl, fun u h => ?_⟩
  exact Except.noConfusion h

/-- Claim C5: a record whose destination is neither `product` nor `checkout`
makes the scan fail with the unrecognized-destination error carrying the
offending value; no redirect URL is returned. (The record's shop domain is
assumed parseable, as resolution of any destination requires.) -/
theorem c5_unrecognized_destination (st : Store) (q : QRCode) (u : URL)
    (hu : parseL q.shopDomain = some u)
    (hp : q.destination ≠ str "product") (hc : q.destination ≠ str "checkout") :
    (QRCodesDatastore.handleCodeScan false st q).2 =
      Except.error (ScanErr.unrecognizedDestination q.destination) := by
  show QRCodesDatastore.scanRedirect q = _
  simp only [QRCodesDatastore.scanRedirect, hu]
  rw [if_neg hp, if_neg hc]

/-- Claim C5, witness at a record with destination `banana`. -/
theorem c5_witness :
    parseL bananaQR.shopDomain =
      some { scheme := str "https", host := str "shop.example.com",
             path := str "/", query := [] } ∧
    bananaQR.destination ≠ str "product" ∧ bananaQR.destination ≠ str "checkout" ∧
    (QRCodesDatastore.handleCodeScan false bananaStore bananaQR).2 =
      Except.error (ScanErr.unrecognizedDestination bananaQR.destination) :=
  ⟨rfl, by decide, by decide,
    c5_unrecognized_destination bananaStore bananaQR _ rfl (by decide) (by decide)⟩

/-- Claim C6: for a product record, resolution without a discount code yields
exactly `host/products/<handle>`, and with discount code D it yields
`host/discount/D?redirect=%2Fproducts%2F<handle>` — the discount path takes
precedence and the product path becomes a urlencoded query parameter. -/
theorem c6_product_urls (sch h handle D : Str) (hs : validSchemeB sch = true)
    (hne : h ≠ []) (hh : ∀ c ∈ h, isSlashQ c = false)
    (hhp : ∀ c ∈ handle, pathSafe c = true) (hhf : ∀ c ∈ handle, formSafe c = true)
    (hD : D ≠ []) (hDp : ∀ c ∈ D, pathSafe c = true) :
    productViewURL (sch ++ str "://" ++ h ++ str "/") handle [] =
      some (sch ++ str "://" ++ h ++ str "/products/" ++ handle) ∧
    productViewURL (sch ++ str "://" ++ h ++ str "/") handle D =
      some (sch ++ str "://" ++ h ++ str "/discount/" ++ D ++
        str "?redirect=%2Fproducts%2F" ++ handle) :=
  ⟨productViewURL_plain sch h handle hs hne hh hhp,
   productViewURL_discount sch h handle D hs hne hh hhf hD hDp⟩

/-- Claim C6, witness at a concrete shop, handle and discount code. -/
theorem c6_witness :
    validSchemeB (str "https") = true ∧ str "shop.example.com" ≠ [] ∧
    (∀ c ∈ str "shop.example.com", isSlashQ c = false) ∧
    (∀ c ∈ str "my-slug", pathSafe c = true) ∧
    (∀ c ∈ str "my-slug", formSafe c = true) ∧
    str "SAVE10" ≠ [] ∧ (∀ c ∈ str "SAVE10", pathSafe c = true) ∧
    (productViewURL (str "https" ++ str "://" ++ str "shop.example.com" ++ str "/")
        (str "my-slug") [] =
      some (str "https" ++ str "://" ++ str "shop.example.com" ++ str "/products/" ++
        str "my-slug") ∧
    productViewURL (str "https" ++ str "://" ++ str "shop.example.com" ++ str "/")
        (str "my-slug") (str "SAVE10") =
      some (str "https" ++ str "://" ++ str "shop.example.com" ++ str "/discount/" ++
        str "SAVE10" ++ str "?redirect=%2Fproducts%2F" ++ str "my-slug")) :=
  ⟨by decide, by decide, by decide, by decide, by decide, by decide, by decide,
    c6_product_urls (str "https") (str "shop.example.com") (str "my-slug") (str "SAVE10")
      (by decide) (by decide) (by decide) (by decide) (by decide) (by decide) (by decide)⟩

/-- Claim C7: for a checkout record with variant id `gid://shopify/ProductVariant/<digits>`,
resolution yields `host/cart/<digits>:1` (quantity defaults to 1), and with a
discount code it yields `host/cart/<digits>:1?discount=<code>`. -/
theorem c7_checkout_urls (sch h digits D : Str) (hs : validSchemeB sch = true)
    (hne : h ≠ []) (hh : ∀ c ∈ h, isSlashQ c = false)
    (hd1 : digits ≠ []) (hd2 : ∀ c ∈ digits, isDigitChar c = true)
    (hD : D ≠ []) (hDf : ∀ c ∈ D, formSafe c = true) :
    productCheckoutURL (sch ++ str "://" ++ h ++ str "/") (gidPat ++ digits) 1 [] =
      some (sch ++ str "://" ++ h ++ str "/cart/" ++ digits ++ str ":1") ∧
    productCheckoutURL (sch ++ str "://" ++ h ++ str "/") (gidPat ++ digits) 1 D =
      some (sch ++ str "://" ++ h ++ str "/cart/" ++ digits ++ str ":1?discount=" ++ D) := by
  have hg : replaceGid (gidPat ++ digits) = digits := replaceGid_gidPat digits hd1 hd2
  have hv : ∀ c ∈ replaceGid (gidPat ++ digits), pathSafe c = true := by
    rw [hg]; exact fun c hc => isDigitChar_pathSafe c (hd2 c hc)
  constructor
  · have := productCheckoutURL_core sch h (gidPat ++ digits) hs hne hh hv
    rw [hg] at this
    exact this
  · have := productCheckoutURL_core_discount sch h (gidPat ++ digits) D hs hne hh hv hD hDf
    rw [hg] at this
    exact this

/-- Claim C7, witness at variant id gid://shopify/ProductVariant/12345 and
discount code SAVE10. -/
theorem c7_witness :
    validSchemeB (str "https") = true ∧ str "shop.example.com" ≠ [] ∧
    (∀ c ∈ str "shop.example.com", isSlashQ c = false) ∧
    str "12345" ≠ [] ∧ (∀ c ∈ str "12345", isDigitChar c = true) ∧
    str "SAVE10" ≠ [] ∧ (∀ c ∈ str "SAVE10", formSafe c = true) ∧
    (productCheckoutURL (str "https" ++ str "://" ++ str "shop.example.com" ++ str "/")
        (gidPat ++ str "12345") 1 [] =
      some (str "https" ++ str "://" ++ str "shop.example.com" ++ str "/cart/" ++
        str "12345" ++ str ":1") ∧
    productCheckoutURL (str "https" ++ str "://" ++ str "shop.example.com" ++ str "/")
        (gidPat ++ str "12345") 1 (str "SAVE10") =
      some (str "https" ++ str "://" ++ str "shop.example.com" ++ str "/cart/" ++
        str "12345" ++ str ":1?discount=" ++ str "SAVE10")) :=
  ⟨by decide, by decide, by decide, by decide, by decide, by decide, by decide,
    c7_checkout_urls (str "https") (str "shop.example.com") (str "12345") (str "SAVE10")
      (by decide) (by decide) (by decide) (by decide) (by decide) (by decide) (by decide)⟩

/-- Claim C9: a record whose discount code is the empty string resolves exactly
as if no discount code were present (the empty string is falsy): the product
branch yields the plain products URL and the checkout branch yields a cart URL
with no discount query parameter. -/
theorem c9_empty_discount (sch h handle digits : Str) (hs : validSchemeB sch = true)
    (hne : h ≠ []) (hh : ∀ c ∈ h, isSlashQ c = false)
    (hhp : ∀ c ∈ handle, pathSafe c = true)
    (hd1 : digits ≠ []) (hd2 : ∀ c ∈ digits, isDigitChar c = true) :
    productViewURL (sch ++ str "://" ++ h ++ str "/") handle (str "") =
      some (sch ++ str "://" ++ h ++ str "/products/" ++ handle) ∧
    productCheckoutURL (sch ++ str "://" ++ h ++ str "/") (gidPat ++ digits) 1 (str "") =
      some (sch ++ str "://" ++ h ++ str "/cart/" ++ digits ++ str ":1") := by
  have hg : replaceGid (gidPat ++ digits) = digits := replaceGid_gidPat digits hd1 hd2
  have hv : ∀ c ∈ replaceGid (gidPat ++ digits), pathSafe c = true := by
    rw [hg]; exact fun c hc => isDigitChar_pathSafe c (hd2 c hc)
  constructor
  · exact productViewURL_plain sch h handle hs hne hh hhp
  · have := productCheckoutURL_core sch h (gidPat ++ digits) hs hne hh hv
    rw [hg] at this
    exact this

/-- Claim C9, witness at a concrete record with empty discount code. -/
theorem c9_witness :
    validSchemeB (str "https") = true ∧ str "shop.example.com" ≠ [] ∧
    (∀ c ∈ str "shop.example.com", isSlashQ c = false) ∧
    (∀ c ∈ str "my-slug", pathSafe c = true) ∧
    str "12345" ≠ [] ∧ (∀ c ∈ str "12345", isDigitChar c = true) ∧
    (productViewURL (str "https" ++ str "://" ++ str "shop.example.com" ++ str "/")
        (str "my-slug") (str "") =
      some (str "https" ++ str "://" ++ str "shop.example.com" ++ str "/products/" ++
        str "my-slug") ∧
    productCheckoutURL (str "https" ++ str "://" ++ str "shop.example.com" ++ str "/")
        (gidPat ++ str "12345") 1 (str "") =
      some (str "https" ++ str "://" ++ str "shop.example.com" ++ str "/cart/" ++
        str "12345" ++ str ":1")) :=
  ⟨by decide, by decide, by decide, by decide, by decide, by decide,
    c9_empty_discount (str "https") (str "shop.example.com") (str "my-slug") (str "12345")
      (by decide) (by decide) (by decide) (by decide) (by decide) (by decide)⟩

/-- Claim C10: for a record whose shop domain has no scheme (no colon at all),
the scan throws at URL construction — before any destination dispatch, whatever
the destination is — and the scan counter has already been incremented. -/
theorem c10_invalid_shopdomain (st : Store) (q : QRCode) (r : Row)
    (hc : (':' : Char) ∉ q.shopDomain) (hr : lookupRow st q.id = some r) :
    QRCodesDatastore.handleCodeScan false st q =
      (QRCodesDatastore.increaseScanCount st q.id, Except.error ScanErr.invalidURL) ∧
    lookupRow (QRCodesDatastore.handleCodeScan false st q).1 q.id =
      some { r with scans := r.scans + 1 } := by
  have hp := parseL_none_of_no_colon q.shopDomain hc
  have h1 : QRCodesDatastore.handleCodeScan false st q =
      (QRCodesDatastore.increaseScanCount st q.id, Except.error ScanErr.invalidURL) := by
    show (QRCodesDatastore.increaseScanCount st q.id, QRCodesDatastore.scanRedirect q) = _
    rw [Prod.mk.injEq]
    refine ⟨rfl, ?_⟩
    simp only [QRCodesDatastore.scanRedirect, hp]
  refine ⟨h1, ?_⟩
  rw [h1]
  show lookupL (mapRow q.id (fun r => { r with scans := r.scans + 1 }) st.rows) q.id = _
  rw [lookupL_mapRow]
  unfold lookupRow at hr
  rw [hr]
  simp

/-- Claim C10, witness at a record with shop domain `shop.myshopify.com`. -/
theorem c10_witness :
    ((':' : Char) ∉ noSchemeQR.shopDomain) ∧
    lookupRow noSchemeStore noSchemeQR.id = some noSchemeRow ∧
    (QRCodesDatastore.handleCodeScan false noSchemeStore noSchemeQR =
      (QRCodesDatastore.increaseScanCount noSchemeStore noSchemeQR.id,
        Except.error ScanErr.invalidURL) ∧
    lookupRow (QRCodesDatastore.handleCodeScan false noSchemeStore noSchemeQR).1
        noSchemeQR.id = some { noSchemeRow with scans := noSchemeRow.scans + 1 }) :=
  ⟨by decide, rfl, c10_invalid_shopdomain noSchemeStore noSchemeQR noSchemeRow
    (by decide) rfl⟩

/-- Claim C8: on a well-formed store, create inserts a record with scans 0 and
returns a fresh identifier that did not exist before; reading it back returns
exactly the supplied field values; and the store stays well-formed. -/
theorem c8_create_read_roundtrip (st : Store) (now : Nat) (f : Fields)
    (hwf : ∀ p ∈ st.rows, p.1 < st.nextId) :
    lookupRow st (QRCodesDatastore.create st now f).2 = none ∧
    QRCodesDatastore.read (QRCodesDatastore.create st now f).1
        (QRCodesDatastore.create st now f).2 =
      some { toFields := f, scans := 0, createdAt := now,
             id := (QRCodesDatastore.create st now f).2 } ∧
    ∀ p ∈ (QRCodesDatastore.create st now f).1.rows,
      p.1 < (QRCodesDatastore.create st now f).1.nextId := by
  have hne : ∀ p ∈ st.rows, p.1 ≠ st.nextId := fun p hp => Nat.ne_of_lt (hwf p hp)
  refine ⟨?_, ?_, ?_⟩
  · exact lookupL_nomatch st.rows st.nextId hne
  · show (lookupL (st.rows ++ [(st.nextId, { toFields := f, scans := 0, createdAt := now })])
        st.nextId).map _ = _
    rw [lookupL_append_single st.rows st.nextId _ hne]
    rfl
  · intro p hp
    show p.1 < st.nextId + 1
    rcases List.mem_append.mp hp with hp2 | hp2
    · exact Nat.lt_succ_of_lt (hwf p hp2)
    · have he : p = (st.nextId, { toFields := f, scans := 0, createdAt := now }) := by
        simpa using hp2
      rw [he]
      exact Nat.lt_succ_self _

/-- Claim C8, witness: creating a record in the empty store. -/
theorem c8_witness :
    (∀ p ∈ emptyStore.rows, p.1 < emptyStore.nextId) ∧
    (lookupRow emptyStore (QRCodesDatastore.create emptyStore 7 shopFields).2 = none ∧
     QRCodesDatastore.read (QRCodesDatastore.create emptyStore 7 shopFields).1
         (QRCodesDatastore.create emptyStore 7 shopFields).2 =
       some { toFields := shopFields, scans := 0, createdAt := 7,
              id := (QRCodesDatastore.create emptyStore 7 shopFields).2 } ∧
     ∀ p ∈ (QRCodesDatastore.create emptyStore 7 shopFields).1.rows,
       p.1 < (QRCodesDatastore.create emptyStore 7 shopFields).1.nextId) :=
  ⟨by decide, c8_create_read_roundtrip emptyStore 7 shopFields (by decide)⟩

/-- Claim C4, counterexample: updating an identifier that does not exist does
not fail with a not-found error — the UPDATE matches no row and update returns
success unconditionally. -/
theorem c4_counterexample :
    QRCodesDatastore.update emptyStore 1 shopFields = (emptyStore, true) ∧
    lookupRow emptyStore 1 = none := ⟨rfl, rfl⟩

/-- Claim C4, amended: update on a non-existent identifier is a silent no-op
that still reports success; on an existing identifier it replaces exactly the
seven mutable fields, preserving shopDomain, scans and createdAt, and leaves
every other record unchanged. -/
theorem c4_amended (st : Store) (id : Nat) (f : Fields) :
    ((∀ p ∈ st.rows, p.1 ≠ id) → QRCodesDatastore.update st id f = (st, true)) ∧
    (∀ r : Row, lookupRow st id = some r →
      lookupRow (QRCodesDatastore.update st id f).1 id =
        some ⟨⟨r.shopDomain, f.title, f.productId, f.variantId, f.handle, f.discountId,
          f.discountCode, f.destination⟩, r.scans, r.createdAt⟩) ∧
    (∀ j, j ≠ id → lookupRow (QRCodesDatastore.update st id f).1 j = lookupRow st j) := by
  refine ⟨?_, ?_, ?_⟩
  · intro h
    unfold QRCodesDatastore.update
    rw [mapRow_nomatch id _ st.rows h]
  · intro r hr
    show lookupL (mapRow id (fun r => QRCodesDatastore.replFields r f) st.rows) id = _
    rw [lookupL_mapRow]
    unfold lookupRow at hr
    rw [hr]
    simp [QRCodesDatastore.replFields]
  · intro j hj
    show lookupL (mapRow id (fun r => QRCodesDatastore.replFields r f) st.rows) j =
      lookupL st.rows j
    rw [lookupL_mapRow]
    cases hx : lookupL st.rows j with
    | none => rfl
    | some r => simp [hj]

/-- Claim C4, amended, witness: a missing id (2) and an existing id (1). -/
theorem c4_amended_witness :
    (∀ p ∈ shopStore.rows, p.1 ≠ 2) ∧
    QRCodesDatastore.update shopStore 2 shopFields = (shopStore, true) ∧
    lookupRow shopStore 1 = some shopRow ∧
    lookupRow (QRCodesDatastore.update shopStore 1 shopFields).1 1 =
      some ⟨⟨shopRow.shopDomain, shopFields.title, shopFields.productId,
        shopFields.variantId, shopFields.handle, shopFields.discountId,
        shopFields.discountCode, shopFields.destination⟩, shopRow.scans,
        shopRow.createdAt⟩ :=
  ⟨by decide, (c4_amended shopStore 2 shopFields).1 (by decide), rfl,
    (c4_amended shopStore 1 shopFields).2.1 shopRow rfl⟩

/-- Claim C3, counterexample: a scan whose destination resolution fails (the
destination is `banana`) has nonetheless incremented the scan counter. -/
theorem c3_counterexample :
    (QRCodesDatastore.handleCodeScan false bananaStore bananaQR).2 =
      Except.error (ScanErr.unrecognizedDestination (str "banana")) ∧
    lookupRow (QRCodesDatastore.handleCodeScan false bananaStore bananaQR).1 1 =
      some { bananaRow with scans := 1 } := ⟨rfl, rfl⟩

/-- Claim C3, amended: the scan counter is monotonically non-decreasing under
every operation, and a scan of an existing record increments it by exactly one
per scan-handling invocation — including scans whose destination resolution
fails afterwards. -/
theorem c3_amended :
    (∀ (op : Op) (st : Store) (j : Nat) (r r' : Row),
        lookupRow st j = some r → lookupRow (applyOp op st) j = some r' →
        r.scans ≤ r'.scans) ∧
    (∀ (st : Store) (q : QRCode) (r : Row),
        lookupRow st q.id = some r →
        lookupRow (QRCodesDatastore.handleCodeScan false st q).1 q.id =
          some { r with scans := r.scans + 1 }) := by
  have hinc : ∀ (st : Store) (id : Nat) (r : Row), lookupRow st id = some r →
      lookupRow (QRCodesDatastore.increaseScanCount st id) id =
        some { r with scans := r.scans + 1 } := by
    intro st id r hr
    show lookupL (mapRow id (fun r => { r with scans := r.scans + 1 }) st.rows) id = _
    rw [lookupL_mapRow]
    unfold lookupRow at hr
    rw [hr]
    simp
  constructor
  · intro op st j r r' h1 h2
    cases op with
    | createOp now f =>
      have heq : r' = r :=
        lookupL_append_stable st.rows st.nextId
          { toFields := f, scans := 0, createdAt := now } j r r' h1 h2
      rw [heq]
    | updateOp id f =>
      have h2' : (lookupL st.rows j).map
          (fun rr => if j = id then QRCodesDatastore.replFields rr f else rr) =
          some r' := by
        rw [← lookupL_mapRow]
        exact h2
      unfold lookupRow at h1
      rw [h1] at h2'
      by_cases hj : j = id
      · subst hj
        simp at h2'
        rw [← h2']
        exact Nat.le_refl r.scans
      · simp [hj] at h2'
        rw [← h2']
    | deleteOp id =>
      by_cases hj : j = id
      · subst hj
        have hnone : lookupL (st.rows.filter (fun p => !decide (p.1 = j))) j = none := by
          unfold lookupL
          rw [filter_ne_self]
        have h2' : lookupL (st.rows.filter (fun p => !decide (p.1 = j))) j = some r' := h2
        rw [hnone] at h2'
        exact Option.noConfusion h2'
      · have h2' : lookupL (st.rows.filter (fun p => !decide (p.1 = id))) j = some r' := h2
        unfold lookupL at h2'
        rw [filter_ne_comm st.rows id j hj] at h2'
        unfold lookupRow lookupL at h1
        rw [h1] at h2'
        injection h2' with h2''
        rw [h2'']
    | scanOp b q2 =>
      cases b with
      | true =>
        have h2' : lookupRow st j = some r' := h2
        rw [h1] at h2'
        injection h2' with h2''
        rw [h2'']
      | false =>
        have h2' : (lookupL st.rows j).map
            (fun rr => if j = q2.id then { rr with scans := rr.scans + 1 } else rr) =
            some r' := by
          rw [← lookupL_mapRow]
          exact h2
        unfold lookupRow at h1
        rw [h1] at h2'
        by_cases hj : j = q2.id
        · simp [hj] at h2'
          rw [← h2']
          exact Nat.le_succ r.scans
        · simp [hj] at h2'
          rw [← h2']
  · intro st q r hr
    exact hinc st q.id r hr

/-- Claim C3, amended, witness: one failing scan of the banana record. -/
theorem c3_amended_witness :
    lookupRow bananaStore 1 = some bananaRow ∧
    lookupRow (applyOp (Op.scanOp false bananaQR) bananaStore) 1 =
      some { bananaRow with scans := 1 } ∧
    bananaRow.scans ≤ ({ bananaRow with scans := 1 } : Row).scans ∧
    lookupRow (QRCodesDatastore.handleCodeScan false bananaStore bananaQR).1 1 =
      some { bananaRow with scans := bananaRow.scans + 1 } :=
  ⟨rfl, rfl,
    c3_amended.1 (Op.scanOp false bananaQR) bananaStore 1 bananaRow
      { bananaRow with scans := 1 } rfl rfl,
    c3_amended.2 bananaStore bananaQR bananaRow rfl⟩
